import Mathlib

/-!
Shallow embedding of the Discogs reconciliation service (discogs.py, config.py).

Time is modelled as `ℚ` (Python's `time.time()` floats). `time.sleep(d)` advances
the clock by `d`; for `d < 0` Python's `time.sleep` raises `ValueError`, which the
model reflects. The upstream HTTP collaborator is modelled as a script: a list of
outcomes consumed one per `requests.get` call; each outcome carries the duration
of the call and either the response (status, rate-limit headers as raw strings,
decoded JSON body) or a raised network exception.
-/

deriving instance DecidableEq for Except

/-- The numeric value of a digit string, most significant first. -/
def digitsVal (cs : List Char) : Nat :=
  cs.foldl (fun acc c => acc * 10 + (c.toNat - 48)) 0

/-- A non-empty all-digit character list parses to its value; anything else fails. -/
def digitsNat? (cs : List Char) : Option Nat :=
  if !cs.isEmpty && cs.all Char.isDigit then some (digitsVal cs) else none

/-- Simplified model of Python's `int(str)`: optional surrounding whitespace, an
optional sign (`Char.ofNat 45` is the minus sign, 43 the plus sign), then decimal
digits. (Python additionally accepts underscore separators between digits, which
no input in this development uses.) -/
def pyInt (s : String) : Option Int :=
  let l1 := s.toList.dropWhile Char.isWhitespace
  let l := (l1.reverse.dropWhile Char.isWhitespace).reverse
  match l with
  | [] => none
  | c :: rest =>
    if c == Char.ofNat 45 then (digitsNat? rest).map (fun n => -(n : Int))
    else if c == Char.ofNat 43 then (digitsNat? rest).map (fun n => (n : Int))
    else (digitsNat? l).map (fun n => (n : Int))

/-- One item of the decoded `results` array of a Discogs search response.
Each field models `item.get(...)`: `none` is an absent key. -/
structure RawItem where
  title : Option String
  name : Option String
  id : Option Int
  catno : Option String
deriving DecidableEq, Repr

/-- The outcome of one `requests.get` call: either a response (status code, the
three rate-limiting headers as raw strings when present, the decoded JSON body's
`results` array — `none` when `resp.json()` raises — and the call's duration), or
a raised network exception after `dur` seconds. -/
inductive GetOutcome where
  | resp (status : Nat) (remH resH raH : Option String)
      (body : Option (List RawItem)) (dur : ℚ)
  | exn (dur : ℚ)
deriving DecidableEq, Repr

/-- Duration of the `requests.get` call an outcome models. -/
def GetOutcome.dur : GetOutcome → ℚ
  | .resp _ _ _ _ _ d => d
  | .exn d => d

/-- The module-level mutable state of discogs.py, plus the wall clock `now`.
`last_request_time`, `rate_limit_remaining`, `rate_limit_reset_time` are the
three globals (initially `0`, `60`, `60`). -/
structure GateState where
  now : ℚ
  last_request_time : ℚ
  rate_limit_remaining : Int
  rate_limit_reset_time : Int
deriving DecidableEq, Repr

/-- A Python exception escaping the modelled code. `scriptEnd` is a modelling
artifact: the finite upstream script was exhausted. -/
inductive PyError where
  | netError
  | valueError
  | scriptEnd
deriving DecidableEq, Repr

/-- The response object as seen by callers of `rate_limited_request`. -/
structure HttpResponse where
  status : Nat
  remH : Option String
  resH : Option String
  raH : Option String
  body : Option (List RawItem)
deriving DecidableEq, Repr

/-- Result of `rate_limited_request`: the returned response or escaped exception,
the final state, the unconsumed remainder of the upstream script, and the times
at which outbound GETs were issued. -/
structure GateResult where
  res : Except PyError HttpResponse
  state : GateState
  rest : List GetOutcome
  sends : List ℚ
deriving DecidableEq, Repr

/-- Models `int(headers.get(H, 60))`: `60` when the header is absent; when
present, Python's `int()` of the raw string, raising `ValueError` when it does
not parse. -/
def hdrInt (h : Option String) : Except PyError Int :=
  match h with
  | none => .ok 60
  | some str =>
    match pyInt str with
    | some v => .ok v
    | none => .error .valueError

/-- The pre-GET part of `rate_limited_request`: `elapsed` is computed first; if
the remaining quota is exhausted the gate sleeps `rate_limit_reset_time` seconds
(raising `ValueError` if that value is negative) and optimistically resets the
quota to 60; then, if less than one second elapsed since the last request, it
sleeps the difference. -/
def preSleep (s : GateState) : Except PyError GateState :=
  let elapsed := s.now - s.last_request_time
  if s.rate_limit_remaining ≤ 0 ∧ s.rate_limit_reset_time < 0 then
    .error .valueError
  else
    let s1 :=
      if s.rate_limit_remaining ≤ 0 then
        { s with now := s.now + (s.rate_limit_reset_time : ℚ), rate_limit_remaining := 60 }
      else s
    .ok (if elapsed < 1 then { s1 with now := s1.now + (1 - elapsed) } else s1)

/-- Embedding of `rate_limited_request(url, headers)` (discogs.py lines 84-113).
The URL and headers do not influence the modelled behaviour; the upstream's
responses are supplied by `script`. On HTTP 200 the two ratelimit headers are
read (defaulting to 60 when absent, raising `ValueError` when unparsable); on
HTTP 429 the `Retry-After` header is read the same way, the gate sleeps that
long and retries; any other status is returned unmodified. `last_request_time`
is assigned right after `requests.get` returns; a raised network error skips
that assignment. -/
def rate_limited_request (script : List GetOutcome) (s : GateState) : GateResult :=
    match preSleep s with
    | .error e => ⟨.error e, s, script, []⟩
    | .ok s2 =>
      match script with
      | [] => ⟨.error .scriptEnd, s2, [], []⟩
      | .exn dur :: rest =>
        ⟨.error .netError, { s2 with now := s2.now + dur }, rest, [s2.now]⟩
      | .resp status remH resH raH body dur :: rest =>
        let send := s2.now
        let s3 := { s2 with now := send + dur, last_request_time := send + dur }
        if status = 200 then
          match hdrInt remH with
          | .error e => ⟨.error e, s3, rest, [send]⟩
          | .ok rv =>
            let s4 := { s3 with rate_limit_remaining := rv }
            match hdrInt resH with
            | .error e => ⟨.error e, s4, rest, [send]⟩
            | .ok tv =>
              ⟨.ok ⟨status, remH, resH, raH, body⟩,
                { s4 with rate_limit_reset_time := tv }, rest, [send]⟩
        else if status = 429 then
          match hdrInt raH with
          | .error e => ⟨.error e, s3, rest, [send]⟩
          | .ok rv =>
            let s4 := { s3 with rate_limit_reset_time := rv }
            if rv < 0 then
              ⟨.error .valueError, s4, rest, [send]⟩
            else
              let s5 := { s4 with now := s4.now + (rv : ℚ) }
              let r := rate_limited_request rest s5
              ⟨r.res, r.state, r.rest, send :: r.sends⟩
        else
          ⟨.ok ⟨status, remH, resH, raH, body⟩, s3, rest, [send]⟩
termination_by script.length
decreasing_by simp_wf

/-! ### Search adapter (discogs.py lines 36-64, 66-70, 115-161) -/

/-- The compiled-in `metadata["defaultTypes"]` list: pairs of `id` and `name`. -/
def defaultTypes : List (String × String) :=
  [("/discogs/artist", "Artist"), ("/discogs/release", "Release"),
   ("/discogs/master", "Master"), ("/discogs/label", "Label"),
   ("/discogs/track", "Track"), ("/discogs/genre", "Genre"),
   ("/discogs/style", "Style"), ("/discogs/country", "Country"),
   ("/discogs/year", "Year"), ("/discogs/format", "Format"),
   ("/discogs/catno", "Catalog Number"), ("/discogs/barcode", "Barcode"),
   ("/discogs/submitter", "Submitter"), ("/discogs/contributor", "Contributor")]

/-- Models `next((item for item in metadata["defaultTypes"] if item['id'] == query_type), None)`. -/
def findType (query_type : String) : Option (String × String) :=
  defaultTypes.find? (fun item => item.1 == query_type)

/-- Models `s.split('/')[-1]`: the characters after the last slash
(`Char.ofNat 47`), or the whole string when no slash occurs. -/
def lastSegment (s : String) : String :=
  String.mk ((s.toList.reverse.takeWhile (fun c => !(c == Char.ofNat 47))).reverse)

/-- Python truthiness of `item.get(...)` for a string field: `None` and `""` are falsy. -/
def truthy : Option String → Bool
  | none => false
  | some s => !(s == "")

/-- Models Python's f-string rendering of an optional integer (`None` prints as "None"). -/
def pyShowOptInt : Option Int → String
  | none => "None"
  | some n => toString n

/-- Embedding of `make_uri(entity_type, discogs_id)`. -/
def make_uri (entity_type : String) (discogs_id : String) : String :=
  "https://www.discogs.com/" ++ entity_type ++ "/" ++ discogs_id

/-- The display-name field of a result item: `item.get('title')` unless the
entity type is `artist`, in which case `item.get('name')` (discogs.py line 140). -/
def displayName (entity_type : String) (item : RawItem) : Option String :=
  if entity_type ≠ "artist" then item.title else item.name

/-- A candidate match as assembled by the loop body of `search` (lines 138-156).
The source's `match` key is named `matchFlag` (`match` is reserved in Lean). -/
structure Candidate where
  id : String
  name : String
  score : Nat
  matchFlag : Bool
  type : List (String × String)
  catno : String
deriving DecidableEq, Repr

/-- Models Python's `str.lower()`, restricted to ASCII case folding. -/
def pyLower (s : String) : String :=
  String.mk (s.toList.map Char.toLower)

/-- The loop body of `search` for one result item, given the found descriptor
`m`. `fz` models `fuzz.token_sort_ratio` (external library): it is only invoked
when the display name is truthy, otherwise the score is 0. -/
def toCandidate (fz : String → String → Nat) (query : String)
    (entity_type : String) (m : String × String) (item : RawItem) : Candidate :=
  let name := displayName entity_type item
  let nameStr := name.getD ""
  { id := make_uri entity_type (pyShowOptInt item.id)
    name := if truthy name then nameStr else "Unknown"
    score := if truthy name then fz query nameStr else 0
    matchFlag := truthy name && (pyLower query == pyLower nameStr)
    type := [m]
    catno := item.catno.getD "N/A" }

/-- The `for item in results.get('results', [])` loop of `search` (lines
138-156). When `query_type_meta` is `None` and there is at least one item, the
first iteration raises `TypeError` at `query_type_meta["id"]`; this error is
outside the `try` block and escapes `search`. -/
def buildCandidates (fz : String → String → Nat) (query : String)
    (entity_type : String) :
    Option (String × String) → List RawItem → Except Unit (List Candidate)
  | _, [] => .ok []
  | none, _ :: _ => .error ()
  | some m, items => .ok (items.map (toCandidate fz query entity_type m))

/-- Descending-by-score insertion used to model Python's stable
`sorted(out, key=itemgetter('score'), reverse=True)`: the new element goes after
every already-placed element with an equal or higher score. -/
def insertDesc (c : Candidate) : List Candidate → List Candidate
  | [] => [c]
  | x :: xs => if c.score ≤ x.score then x :: insertDesc c xs else c :: x :: xs

/-- Stable descending sort by score, processing arrivals left to right; this is
extensionally the unique stable descending sort, hence Python's
`sorted(..., reverse=True)`. -/
def sortDesc (l : List Candidate) : List Candidate :=
  l.foldl (fun acc c => insertDesc c acc) []

/-- The final two lines of `search`: sort descending by score, keep the top 3. -/
def rank (l : List Candidate) : List Candidate :=
  (sortDesc l).take 3

/-- Result of `search`: the returned list or the escaped exception, plus the
rate-gate state, remaining upstream script and outbound send times. -/
structure SearchOut where
  result : Except Unit (List Candidate)
  state : GateState
  rest : List GetOutcome
  sends : List ℚ
deriving DecidableEq, Repr

/-- The entity-type slug of `search` (discogs.py line 121):
`query_type_meta["id"].split('/')[-1] if query_type_meta else 'artist'`. -/
def searchEntityType (query_type : String) : String :=
  match findType query_type with
  | some m => lastSegment m.1
  | none => "artist"

/-- Embedding of `search(query, query_type)` (discogs.py lines 115-161). Every
exception raised inside the `try` block — from `rate_limited_request` or from
`resp.json()` (modelled as `body = none`) — is caught and yields the empty list.
The item loop and the final ranking are outside the `try`. -/
def search (fz : String → String → Nat) (script : List GetOutcome)
    (s : GateState) (query : String) (query_type : String) : SearchOut :=
  match (rate_limited_request script s).res with
  | .error _ =>
    ⟨.ok [], (rate_limited_request script s).state,
      (rate_limited_request script s).rest, (rate_limited_request script s).sends⟩
  | .ok resp =>
    match resp.body with
    | none =>
      ⟨.ok [], (rate_limited_request script s).state,
        (rate_limited_request script s).rest, (rate_limited_request script s).sends⟩
    | some items =>
      match buildCandidates fz query (searchEntityType query_type)
          (findType query_type) items with
      | .error e =>
        ⟨.error e, (rate_limited_request script s).state,
          (rate_limited_request script s).rest, (rate_limited_request script s).sends⟩
      | .ok out =>
        ⟨.ok (rank out), (rate_limited_request script s).state,
          (rate_limited_request script s).rest, (rate_limited_request script s).sends⟩

/-! ### Reconciliation endpoint (discogs.py lines 163-194) -/

/-- A Python exception escaping the `reconcile` view function. -/
inductive PyExn where
  | typeError
  | unboundLocal
  | keyError
  | jsonError
deriving DecidableEq, Repr

/-- One decoded entry of the `queries` batch mapping: `query.get('type', ...)` and
`query['query']` read from it. -/
structure QueryObj where
  queryField : Option String
  typeField : Option String
deriving DecidableEq, Repr

/-- The three response shapes of the `reconcile` endpoint. -/
inductive ReconcileResp where
  | single (r : List Candidate)
  | batch (r : List (String × List Candidate))
  | metadataDoc
deriving DecidableEq, Repr

/-- Result of the `reconcile` endpoint: response or escaped exception, final
rate-gate state and outbound send times. -/
structure ReconcileOut where
  resp : Except PyExn ReconcileResp
  state : GateState
  rest : List GetOutcome
  sends : List ℚ
deriving DecidableEq, Repr

/-- The batch loop of `reconcile` (lines 185-191): for each `(key, query)` pair,
`qtype = query.get('type', '/discogs/artist')`, then `search(query['query'],
query_type=qtype)` — a missing `'query'` key raises `KeyError`, and an error
escaping `search` aborts the whole batch. -/
def runBatch (fz : String → String → Nat) :
    List (String × QueryObj) → List GetOutcome → GateState →
    Except PyExn (List (String × List Candidate)) × GateState × List GetOutcome × List ℚ
  | [], script, s => (.ok [], s, script, [])
  | (key, q) :: restQ, script, s =>
    let qtype := q.typeField.getD "/discogs/artist"
    match q.queryField with
    | none => (.error .keyError, s, script, [])
    | some qtext =>
      let so := search fz script s qtext qtype
      match so.result with
      | .error _ => (.error .typeError, so.state, so.rest, so.sends)
      | .ok data =>
        let (r, s2, rest2, tr2) := runBatch fz restQ so.rest so.state
        match r with
        | .error e => (.error e, s2, rest2, so.sends ++ tr2)
        | .ok restRes => (.ok ((key, data) :: restRes), s2, rest2, so.sends ++ tr2)

/-- The tail of `reconcile` (lines 180-194): with a truthy `queries` form
parameter, run the batch (the mapping is modelled already decoded); otherwise
return the service metadata document. -/
def reconcileTail (fz : String → String → Nat) (script : List GetOutcome)
    (s : GateState) (form_queries : Option (List (String × QueryObj))) :
    ReconcileOut :=
  match form_queries with
  | none => ⟨.ok .metadataDoc, s, script, []⟩
  | some qs =>
    let (r, s1, rest1, tr) := runBatch fz qs script s
    match r with
    | .error e => ⟨.error e, s1, rest1, tr⟩
    | .ok res => ⟨.ok (.batch res), s1, rest1, tr⟩

/-- Models `query.startswith("\x7b")` — whether the first character is an
opening brace (`Char.ofNat 123`). -/
def startsWithBrace (q : String) : Bool :=
  match q.toList with
  | [] => false
  | c :: _ => c == Char.ofNat 123

/-- Embedding of the `reconcile` view (discogs.py lines 163-194). `jq` models
`json.loads(query)['query']` for a `query` value that starts with a brace
(external `json` library; `.error` is a raised decode/key error). The local
`query_type` is only assigned on the branch where the form `query` parameter is
absent; calling `search` with it unassigned raises `UnboundLocalError`. -/
def reconcile (fz : String → String → Nat) (jq : String → Except Unit String)
    (script : List GetOutcome) (s : GateState)
    (form_query args_query args_type : Option String)
    (form_queries : Option (List (String × QueryObj))) : ReconcileOut :=
  let query : Option String :=
    match form_query with
    | some q => some q
    | none => args_query
  let query_type : Option String :=
    match form_query with
    | some _ => none
    | none => some (args_type.getD "/discogs/artist")
  match query with
  | some q =>
    if q = "" then
      reconcileTail fz script s form_queries
    else
      match (if startsWithBrace q then jq q else .ok q) with
      | .error _ => ⟨.error .jsonError, s, script, []⟩
      | .ok qq =>
        match query_type with
        | none => ⟨.error .unboundLocal, s, script, []⟩
        | some t =>
          let so := search fz script s qq t
          match so.result with
          | .error _ => ⟨.error .typeError, so.state, so.rest, so.sends⟩
          | .ok r => ⟨.ok (.single r), so.state, so.rest, so.sends⟩
  | none => reconcileTail fz script s form_queries

/-! ### Configuration (config.py) -/

/-- Models Python's `s.strip("'")`: removes apostrophes from both ends. -/
def pyStripQuotes (s : String) : String :=
  let l := s.toList.dropWhile (fun c => c == Char.ofNat 39)
  String.mk ((l.reverse.dropWhile (fun c => c == Char.ofNat 39)).reverse)

/-- The validated configuration produced by `Config.__init__`. -/
structure ConfigModel where
  DISCOGS_USER : String
  TOKEN : String
  PORT : Int
deriving DecidableEq, Repr

/-- Embedding of `Config.__init__(env)` (config.py lines 25-52). The annotated
fields are processed in declaration order: `DISCOGS_USER : str` and
`TOKEN : str` have no default, so an absent environment variable raises
`ConfigError`; string values are `str(raw.strip("'"))`. `PORT : int = 3456`
falls back to its default when unset; a set value goes through `int()`, whose
`ValueError` is re-raised as `ConfigError` (the model's `.error ()`). -/
def ConfigInit (env : String → Option String) : Except Unit ConfigModel :=
  match env "DISCOGS_USER" with
  | none => .error ()
  | some du =>
    match env "TOKEN" with
    | none => .error ()
    | some tok =>
      match env "PORT" with
      | none => .ok ⟨pyStripQuotes du, pyStripQuotes tok, 3456⟩
      | some p =>
        match pyInt p with
        | some v => .ok ⟨pyStripQuotes du, pyStripQuotes tok, v⟩
        | none => .error ()

/-! ### Ordering lemmas for the descending stable sort -/

/-- The descending-score ordering of result lists. -/
def desc (a b : Candidate) : Prop := b.score ≤ a.score

lemma mem_insertDesc {c y : Candidate} {l : List Candidate} :
    y ∈ insertDesc c l ↔ y = c ∨ y ∈ l := by
  induction l with
  | nil => simp [insertDesc]
  | cons x xs ih =>
    by_cases h : c.score ≤ x.score
    · simp only [insertDesc, if_pos h, List.mem_cons, ih]
      tauto
    · simp only [insertDesc, if_neg h, List.mem_cons]

lemma pairwise_insertDesc {c : Candidate} {l : List Candidate}
    (h : l.Pairwise desc) : (insertDesc c l).Pairwise desc := by
  induction l with
  | nil => simp [insertDesc, List.pairwise_singleton]
  | cons x xs ih =>
    rcases List.pairwise_cons.mp h with ⟨hx, hxs⟩
    by_cases hc : c.score ≤ x.score
    · simp only [insertDesc, if_pos hc]
      refine List.pairwise_cons.mpr ⟨?_, ih hxs⟩
      intro y hy
      rcases mem_insertDesc.mp hy with rfl | hy
      · exact hc
      · exact hx y hy
    · simp only [insertDesc, if_neg hc]
      push_neg at hc
      refine List.pairwise_cons.mpr ⟨?_, h⟩
      intro y hy
      rcases List.mem_cons.mp hy with rfl | hy
      · exact le_of_lt hc
      · exact le_trans (hx y hy) (le_of_lt hc)

lemma filter_insertDesc (n : Nat) (c : Candidate) (l : List Candidate)
    (h : l.Pairwise desc) :
    (insertDesc c l).filter (fun x => x.score == n) =
      l.filter (fun x => x.score == n) ++ (if c.score == n then [c] else []) := by
  induction l with
  | nil => cases hc : (c.score == n) <;> simp [insertDesc, List.filter_cons, hc]
  | cons x xs ih =>
    rcases List.pairwise_cons.mp h with ⟨hx, hxs⟩
    by_cases hcx : c.score ≤ x.score
    · simp only [insertDesc, if_pos hcx, List.filter_cons]
      rw [ih hxs]
      cases hxn : (x.score == n) <;> simp [hxn]
    · push_neg at hcx
      simp only [insertDesc, if_neg (not_le.mpr hcx), List.filter_cons]
      by_cases hcn : c.score = n
      · have hnil : (x :: xs).filter (fun x => x.score == n) = [] := by
          refine List.filter_eq_nil_iff.mpr ?_
          intro y hy
          have hyx : y.score ≤ x.score := by
            rcases List.mem_cons.mp hy with rfl | hy
            · exact le_refl _
            · exact hx y hy
          have : y.score < n := lt_of_le_of_lt hyx (hcn ▸ hcx)
          simp [Nat.ne_of_lt this]
        rw [List.filter_cons] at hnil
        simp only [hnil]
        simp [hcn]
      · have hcn' : (c.score == n) = false := by simp [hcn]
        simp [List.filter_cons, hcn']

lemma pairwise_sortDesc_go (l acc : List Candidate) (hacc : acc.Pairwise desc) :
    (l.foldl (fun a c => insertDesc c a) acc).Pairwise desc := by
  induction l generalizing acc with
  | nil => exact hacc
  | cons c cs ih => exact ih _ (pairwise_insertDesc hacc)

lemma pairwise_sortDesc (l : List Candidate) : (sortDesc l).Pairwise desc :=
  pairwise_sortDesc_go l [] (by simp)

lemma filter_sortDesc_go (n : Nat) (l acc : List Candidate) (hacc : acc.Pairwise desc) :
    (l.foldl (fun a c => insertDesc c a) acc).filter (fun x => x.score == n) =
      acc.filter (fun x => x.score == n) ++ l.filter (fun x => x.score == n) := by
  induction l generalizing acc with
  | nil => simp
  | cons c cs ih =>
    simp only [List.foldl_cons, List.filter_cons]
    rw [ih _ (pairwise_insertDesc hacc), filter_insertDesc n c acc hacc]
    cases h : (c.score == n) <;> simp [h, List.append_assoc]

lemma filter_sortDesc (n : Nat) (l : List Candidate) :
    (sortDesc l).filter (fun x => x.score == n) = l.filter (fun x => x.score == n) := by
  have := filter_sortDesc_go n l [] (by simp)
  simpa [sortDesc] using this

lemma pairwise_rank (l : List Candidate) : (rank l).Pairwise desc :=
  (pairwise_sortDesc l).sublist (List.take_sublist 3 (sortDesc l))

lemma length_rank (l : List Candidate) : (rank l).length ≤ 3 :=
  List.length_take_le 3 (sortDesc l)

/-! ### Rate-gate trace lemmas -/

def gap1 (a b : ℚ) : Prop := a + 1 ≤ b

lemma preSleep_spec (s s2 : GateState) (h : preSleep s = .ok s2) :
    s2.last_request_time = s.last_request_time
    ∧ s.now ≤ s2.now
    ∧ (s.last_request_time ≤ s.now → s.last_request_time + 1 ≤ s2.now) := by
  by_cases hq : s.rate_limit_remaining ≤ 0 ∧ s.rate_limit_reset_time < 0
  · unfold preSleep at h; rw [if_pos hq] at h; exact absurd h (by simp)
  · unfold preSleep at h
    rw [if_neg hq] at h
    simp only [Except.ok.injEq] at h
    push_neg at hq
    by_cases hrem : s.rate_limit_remaining ≤ 0
    · have hreset : (0:ℚ) ≤ (s.rate_limit_reset_time : ℚ) := by exact_mod_cast hq hrem
      rw [if_pos hrem] at h
      by_cases he : s.now - s.last_request_time < 1
      · rw [if_pos he] at h
        subst h
        refine ⟨rfl, ?_, fun hl => ?_⟩ <;> dsimp only <;> linarith
      · rw [if_neg he] at h
        subst h
        push_neg at he
        refine ⟨rfl, ?_, fun hl => ?_⟩ <;> dsimp only <;> linarith
    · rw [if_neg hrem] at h
      by_cases he : s.now - s.last_request_time < 1
      · rw [if_pos he] at h
        subst h
        refine ⟨rfl, ?_, fun hl => ?_⟩ <;> dsimp only <;> linarith
      · rw [if_neg he] at h
        subst h
        push_neg at he
        exact ⟨rfl, le_refl _, fun hl => by linarith⟩

/-- The per-call trace invariant of the rate gate. -/
def SpecP (s : GateState) (r : GateResult) : Prop :=
  r.sends.Chain' gap1
  ∧ (∀ t ∈ r.sends, s.last_request_time + 1 ≤ t)
  ∧ s.last_request_time ≤ r.state.last_request_time
  ∧ r.state.last_request_time ≤ r.state.now
  ∧ (r.res.isOk = true → ∀ t ∈ r.sends, t ≤ r.state.last_request_time)

lemma rlr_preSleep_error (script : List GetOutcome) (s : GateState) (e : PyError)
    (h : preSleep s = .error e) :
    rate_limited_request script s = ⟨.error e, s, script, []⟩ := by
  unfold rate_limited_request; rw [h]

lemma rlr_nil_ok (s s2 : GateState) (h : preSleep s = .ok s2) :
    rate_limited_request [] s = ⟨.error .scriptEnd, s2, [], []⟩ := by
  unfold rate_limited_request; rw [h]

lemma rlr_exn (dur : ℚ) (rest : List GetOutcome) (s s2 : GateState)
    (h : preSleep s = .ok s2) :
    rate_limited_request (.exn dur :: rest) s =
      ⟨.error .netError, { s2 with now := s2.now + dur }, rest, [s2.now]⟩ := by
  unfold rate_limited_request; rw [h]

lemma rlr_resp (status : Nat) (remH resH raH : Option String)
    (body : Option (List RawItem)) (dur : ℚ) (rest : List GetOutcome)
    (s s2 : GateState) (h : preSleep s = .ok s2) :
    rate_limited_request (.resp status remH resH raH body dur :: rest) s =
      (let send := s2.now
       let s3 := { s2 with now := send + dur, last_request_time := send + dur }
       if status = 200 then
         match hdrInt remH with
         | .error e => ⟨.error e, s3, rest, [send]⟩
         | .ok rv =>
           let s4 := { s3 with rate_limit_remaining := rv }
           match hdrInt resH with
           | .error e => ⟨.error e, s4, rest, [send]⟩
           | .ok tv =>
             ⟨.ok ⟨status, remH, resH, raH, body⟩,
               { s4 with rate_limit_reset_time := tv }, rest, [send]⟩
       else if status = 429 then
         match hdrInt raH with
         | .error e => ⟨.error e, s3, rest, [send]⟩
         | .ok rv =>
           let s4 := { s3 with rate_limit_reset_time := rv }
           if rv < 0 then
             ⟨.error .valueError, s4, rest, [send]⟩
           else
             let s5 := { s4 with now := s4.now + (rv : ℚ) }
             let r := rate_limited_request rest s5
             ⟨r.res, r.state, r.rest, send :: r.sends⟩
       else
         ⟨.ok ⟨status, remH, resH, raH, body⟩, s3, rest, [send]⟩) := by
  conv_lhs => rw [rate_limited_request.eq_def, h]

lemma specP_simple (s st : GateState) (res : Except PyError HttpResponse)
    (rest : List GetOutcome) (send dur : ℚ)
    (h1 : s.last_request_time + 1 ≤ send) (h2 : 0 ≤ dur)
    (h3 : st.last_request_time = send + dur) (h4 : st.now = send + dur) :
    SpecP s ⟨res, st, rest, [send]⟩ := by
  refine ⟨List.chain'_singleton _, ?_, ?_, ?_, ?_⟩
  · intro t ht
    simp only [List.mem_singleton] at ht
    subst ht; exact h1
  · simp only []; rw [h3]; linarith
  · simp only []; rw [h3, h4]
  · intro _ t ht
    simp only [List.mem_singleton] at ht
    subst ht; simp only []; rw [h3]; linarith

lemma gate_spec (script : List GetOutcome) (s : GateState)
    (hdur : ∀ ev ∈ script, 0 ≤ ev.dur) (hs : s.last_request_time ≤ s.now) :
    SpecP s (rate_limited_request script s) := by
  induction script generalizing s with
  | nil =>
    cases hps : preSleep s with
    | error e =>
      rw [rlr_preSleep_error _ _ _ hps]
      exact ⟨List.chain'_nil, by simp, le_refl _, hs, by simp⟩
    | ok s2 =>
      obtain ⟨hl, hn, _⟩ := preSleep_spec s s2 hps
      rw [rlr_nil_ok _ _ hps]
      exact ⟨List.chain'_nil, by simp, by rw [hl], by rw [hl]; exact le_trans hs hn, by simp⟩
  | cons ev rest ih =>
    cases hps : preSleep s with
    | error e =>
      rw [rlr_preSleep_error _ _ _ hps]
      exact ⟨List.chain'_nil, by simp, le_refl _, hs, by simp⟩
    | ok s2 =>
      obtain ⟨hl, hn, hgap⟩ := preSleep_spec s s2 hps
      have hsend : s.last_request_time + 1 ≤ s2.now := hgap hs
      cases ev with
      | exn dur =>
        have hd : (0:ℚ) ≤ dur := hdur (GetOutcome.exn dur) (List.mem_cons_self _ _)
        rw [rlr_exn _ _ _ _ hps]
        refine ⟨List.chain'_singleton _, ?_, ?_, ?_, ?_⟩
        · intro t ht
          simp only [List.mem_singleton] at ht
          subst ht; exact hsend
        · simp only []; rw [hl]
        · simp only []; rw [hl]; linarith
        · intro hok
          simp [Except.isOk, Except.toBool] at hok
      | resp status remH resH raH body dur =>
        have hd : (0:ℚ) ≤ dur :=
          hdur (GetOutcome.resp status remH resH raH body dur) (List.mem_cons_self _ _)
        have hdr : ∀ ev ∈ rest, 0 ≤ ev.dur := fun e he => hdur e (List.mem_cons_of_mem _ he)
        rw [rlr_resp _ _ _ _ _ _ _ _ _ hps]
        simp only []
        by_cases h200 : status = 200
        · rw [if_pos h200]
          cases hdrInt remH with
          | error e => exact specP_simple _ _ _ _ _ _ hsend hd rfl rfl
          | ok rv =>
            cases hdrInt resH with
            | error e => exact specP_simple _ _ _ _ _ _ hsend hd rfl rfl
            | ok tv => exact specP_simple _ _ _ _ _ _ hsend hd rfl rfl
        · rw [if_neg h200]
          by_cases h429 : status = 429
          · rw [if_pos h429]
            cases hdrInt raH with
            | error e => exact specP_simple _ _ _ _ _ _ hsend hd rfl rfl
            | ok rv =>
              simp only []
              by_cases hrv : rv < 0
              · rw [if_pos hrv]
                exact specP_simple _ _ _ _ _ _ hsend hd rfl rfl
              · rw [if_neg hrv]
                push_neg at hrv
                have hrvq : (0:ℚ) ≤ (rv : ℚ) := by exact_mod_cast hrv
                set s5 : GateState :=
                  { now := s2.now + dur + rv, last_request_time := s2.now + dur,
                    rate_limit_remaining := s2.rate_limit_remaining,
                    rate_limit_reset_time := rv } with hs5
                have hs5le : s5.last_request_time ≤ s5.now := by
                  rw [hs5]; simp only []; linarith
                obtain ⟨ichain, imem, ilast, inow, iok⟩ := ih s5 hdr hs5le
                refine ⟨?_, ?_, ?_, inow, ?_⟩
                · refine List.chain'_cons'.mpr ⟨?_, ichain⟩
                  intro t ht
                  have htm : t ∈ (rate_limited_request rest s5).sends :=
                    List.mem_of_mem_head? ht
                  have := imem t htm
                  rw [hs5] at this; simp only [] at this
                  show s2.now + 1 ≤ t
                  linarith
                · intro t ht
                  rcases List.mem_cons.mp ht with rfl | ht
                  · exact hsend
                  · have := imem t ht
                    rw [hs5] at this; simp only [] at this
                    linarith
                · have : s5.last_request_time ≤ (rate_limited_request rest s5).state.last_request_time := ilast
                  rw [hs5] at this; simp only [] at this
                  linarith
                · intro hok t ht
                  rcases List.mem_cons.mp ht with rfl | ht
                  · have : s5.last_request_time ≤ (rate_limited_request rest s5).state.last_request_time := ilast
                    rw [hs5] at this; simp only [] at this
                    linarith
                  · exact iok hok t ht
          · rw [if_neg h429]
            exact specP_simple _ _ _ _ _ _ hsend hd rfl rfl

/-- Back-to-back calls through the rate gate: each call consumes its own
upstream script and the next call starts from the resulting state even when an
exception escaped the gate — as in the program, where `search` catches the
exception (returning an empty result) and the endpoint keeps serving, so the
globals carry over unchanged into the next call. Returns the final state and
the concatenated outbound send times. -/
def runCalls : List (List GetOutcome) → GateState → GateState × List ℚ
  | [], s => (s, [])
  | sc :: rest, s =>
    ((runCalls rest (rate_limited_request sc s).state).1,
      (rate_limited_request sc s).sends ++
        (runCalls rest (rate_limited_request sc s).state).2)

/-- An upstream outcome in which `requests.get` returns a response rather than
raising. -/
def noRaise : GetOutcome → Prop
  | .resp _ _ _ _ _ _ => True
  | .exn _ => False

lemma sends_le_last_simple (st : GateState) (res : Except PyError HttpResponse)
    (rest : List GetOutcome) (send dur : ℚ) (h2 : 0 ≤ dur)
    (h3 : st.last_request_time = send + dur) :
    ∀ t ∈ (⟨res, st, rest, [send]⟩ : GateResult).sends,
      t ≤ (⟨res, st, rest, [send]⟩ : GateResult).state.last_request_time := by
  intro t ht
  simp only [List.mem_singleton] at ht
  subst ht
  dsimp only
  rw [h3]
  linarith

lemma gate_sends_le_last (script : List GetOutcome) (s : GateState)
    (hdur : ∀ ev ∈ script, 0 ≤ ev.dur) (hnx : ∀ ev ∈ script, noRaise ev) :
    ∀ t ∈ (rate_limited_request script s).sends,
      t ≤ (rate_limited_request script s).state.last_request_time := by
  induction script generalizing s with
  | nil =>
    cases hps : preSleep s with
    | error e =>
      rw [rlr_preSleep_error _ _ _ hps]
      simp
    | ok s2 =>
      rw [rlr_nil_ok _ _ hps]
      simp
  | cons ev rest ih =>
    cases hps : preSleep s with
    | error e =>
      rw [rlr_preSleep_error _ _ _ hps]
      simp
    | ok s2 =>
      cases ev with
      | exn dur => exact absurd (hnx _ (List.mem_cons_self _ _)) (by simp [noRaise])
      | resp status remH resH raH body dur =>
        have hd : (0:ℚ) ≤ dur :=
          hdur (GetOutcome.resp status remH resH raH body dur) (List.mem_cons_self _ _)
        have hdr : ∀ e ∈ rest, 0 ≤ e.dur := fun e he => hdur e (List.mem_cons_of_mem _ he)
        have hnr : ∀ e ∈ rest, noRaise e := fun e he => hnx e (List.mem_cons_of_mem _ he)
        rw [rlr_resp _ _ _ _ _ _ _ _ _ hps]
        dsimp only
        by_cases h200 : status = 200
        · rw [if_pos h200]
          cases hdrInt remH with
          | error e => exact sends_le_last_simple _ _ _ _ _ hd rfl
          | ok rv =>
            cases hdrInt resH with
            | error e => exact sends_le_last_simple _ _ _ _ _ hd rfl
            | ok tv => exact sends_le_last_simple _ _ _ _ _ hd rfl
        · rw [if_neg h200]
          by_cases h429 : status = 429
          · rw [if_pos h429]
            cases hdrInt raH with
            | error e => exact sends_le_last_simple _ _ _ _ _ hd rfl
            | ok rv =>
              simp only []
              by_cases hrv : rv < 0
              · rw [if_pos hrv]
                exact sends_le_last_simple _ _ _ _ _ hd rfl
              · rw [if_neg hrv]
                push_neg at hrv
                have hrvq : (0:ℚ) ≤ (rv : ℚ) := by exact_mod_cast hrv
                set s5 : GateState :=
                  { now := s2.now + dur + rv, last_request_time := s2.now + dur,
                    rate_limit_remaining := s2.rate_limit_remaining,
                    rate_limit_reset_time := rv } with hs5
                have hs5le : s5.last_request_time ≤ s5.now := by
                  rw [hs5]; simp only []; linarith
                have hlast : s5.last_request_time ≤
                    (rate_limited_request rest s5).state.last_request_time :=
                  (gate_spec rest s5 hdr hs5le).2.2.1
                intro t ht
                dsimp only at ht ⊢
                rcases List.mem_cons.mp ht with rfl | ht
                · rw [hs5] at hlast
                  simp only [] at hlast
                  linarith
                · exact ih s5 hdr hnr t ht
          · rw [if_neg h429]
            exact sends_le_last_simple _ _ _ _ _ hd rfl

lemma runCalls_spec (scripts : List (List GetOutcome)) (s : GateState)
    (hdur : ∀ sc ∈ scripts, ∀ ev ∈ sc, 0 ≤ ev.dur)
    (hnx : ∀ sc ∈ scripts, ∀ ev ∈ sc, noRaise ev)
    (hs : s.last_request_time ≤ s.now) :
    (runCalls scripts s).2.Chain' gap1
    ∧ ∀ t ∈ (runCalls scripts s).2, s.last_request_time + 1 ≤ t := by
  induction scripts generalizing s with
  | nil => simp [runCalls]
  | cons sc rest ih =>
    obtain ⟨gchain, gmem, glast, gnow, _⟩ :=
      gate_spec sc s (hdur sc (List.mem_cons_self _ _)) hs
    have gle := gate_sends_le_last sc s (hdur sc (List.mem_cons_self _ _))
      (hnx sc (List.mem_cons_self _ _))
    have hdr : ∀ sc' ∈ rest, ∀ ev ∈ sc', 0 ≤ ev.dur :=
      fun sc' h' => hdur sc' (List.mem_cons_of_mem _ h')
    have hnr : ∀ sc' ∈ rest, ∀ ev ∈ sc', noRaise ev :=
      fun sc' h' => hnx sc' (List.mem_cons_of_mem _ h')
    obtain ⟨ichain, imem⟩ := ih (rate_limited_request sc s).state hdr hnr gnow
    simp only [runCalls]
    constructor
    · refine List.Chain'.append gchain ichain ?_
      intro x hx y hy
      have hx' : x ∈ (rate_limited_request sc s).sends :=
        List.mem_of_mem_getLast? hx
      have hy' : y ∈ (runCalls rest (rate_limited_request sc s).state).2 :=
        List.mem_of_mem_head? hy
      have h1 := gle x hx'
      have h2 := imem y hy'
      show x + 1 ≤ y
      linarith
    · intro t ht
      rcases List.mem_append.mp ht with ht | ht
      · exact gmem t ht
      · have := imem t ht
        linarith [glast]

lemma preSleep_isOk (s : GateState)
    (hq : 0 < s.rate_limit_remaining ∨ 0 ≤ s.rate_limit_reset_time) :
    ∃ s2, preSleep s = .ok s2 := by
  have hcond : ¬(s.rate_limit_remaining ≤ 0 ∧ s.rate_limit_reset_time < 0) := by
    rcases hq with h | h
    · exact fun hc => absurd hc.1 (not_le.mpr h)
    · exact fun hc => absurd hc.2 (not_lt.mpr h)
  unfold preSleep
  rw [if_neg hcond]
  exact ⟨_, rfl⟩

/-- A 429 response whose `Retry-After` header parses to a non-negative value
(or is absent, in which case `hdrInt` yields the default 60). -/
def good429 : GetOutcome → Prop
  | .resp status _ _ raH _ _ => status = 429 ∧ ∃ v, hdrInt raH = .ok v ∧ 0 ≤ v
  | .exn _ => False

/-- A non-429 response whose header processing raises nothing (for status 200,
both ratelimit headers must be absent or parsable). -/
def goodFinal : GetOutcome → Prop
  | .resp status remH resH _ _ _ =>
      status ≠ 429 ∧ (status = 200 → (∃ v, hdrInt remH = .ok v) ∧ ∃ v, hdrInt resH = .ok v)
  | .exn _ => False

/-- The response object a `.resp` outcome produces. -/
def respOf : GetOutcome → HttpResponse
  | .resp st a b c d _ => ⟨st, a, b, c, d⟩
  | .exn _ => ⟨0, none, none, none, none⟩

/-- The backoff value the gate reads from a 429 response's `Retry-After` header. -/
def retryVal : GetOutcome → Int
  | .resp _ _ _ raH _ _ =>
    match hdrInt raH with
    | .ok v => v
    | .error _ => 0
  | .exn _ => 0

/-- Every retry send waits out the previous 429's duration plus its
`Retry-After` backoff: consecutive send times are separated accordingly. -/
def backoffOk : List ℚ → List GetOutcome → Prop
  | t0 :: t1 :: ts, e :: es =>
      t0 + e.dur + (retryVal e : ℚ) ≤ t1 ∧ backoffOk (t1 :: ts) es
  | _, _ => True

lemma retry_spec (pre : List GetOutcome) (fin : GetOutcome) (rest : List GetOutcome)
    (s : GateState)
    (hpre : ∀ e ∈ pre, good429 e) (hfin : goodFinal fin)
    (hq : 0 < s.rate_limit_remaining ∨ 0 ≤ s.rate_limit_reset_time) :
    (rate_limited_request (pre ++ fin :: rest) s).res = .ok (respOf fin)
    ∧ (rate_limited_request (pre ++ fin :: rest) s).sends.length = pre.length + 1
    ∧ (rate_limited_request (pre ++ fin :: rest) s).rest = rest
    ∧ backoffOk (rate_limited_request (pre ++ fin :: rest) s).sends pre
    ∧ (∀ t0, (rate_limited_request (pre ++ fin :: rest) s).sends.head? = some t0 →
        s.now ≤ t0) := by
  induction pre generalizing s with
  | nil =>
    obtain ⟨s2, hps⟩ := preSleep_isOk s hq
    obtain ⟨hl, hn, _⟩ := preSleep_spec s s2 hps
    cases fin with
    | exn dur => exact absurd hfin (by simp [goodFinal])
    | resp status remH resH raH body dur =>
      obtain ⟨h429, h200h⟩ := hfin
      rw [List.nil_append, rlr_resp _ _ _ _ _ _ _ _ _ hps]
      simp only []
      by_cases h200 : status = 200
      · obtain ⟨⟨v1, hv1⟩, v2, hv2⟩ := h200h h200
        rw [if_pos h200, hv1]
        dsimp only
        rw [hv2]
        dsimp only
        refine ⟨rfl, rfl, rfl, trivial, ?_⟩
        intro t0 ht0
        simp only [List.head?_cons, Option.some.injEq] at ht0
        subst ht0
        exact hn
      · rw [if_neg h200, if_neg h429]
        refine ⟨rfl, rfl, rfl, trivial, ?_⟩
        intro t0 ht0
        simp only [List.head?_cons, Option.some.injEq] at ht0
        subst ht0
        exact hn
  | cons e pre' ih =>
    obtain ⟨s2, hps⟩ := preSleep_isOk s hq
    obtain ⟨hl, hn, _⟩ := preSleep_spec s s2 hps
    have hpre' : ∀ x ∈ pre', good429 x := fun x hx => hpre x (List.mem_cons_of_mem _ hx)
    cases e with
    | exn dur => exact absurd (hpre _ (List.mem_cons_self _ _)) (by simp [good429])
    | resp status remH resH raH body dur =>
      obtain ⟨h429st, v, hv, hv0⟩ := hpre _ (List.mem_cons_self _ _)
      subst h429st
      rw [List.cons_append, rlr_resp _ _ _ _ _ _ _ _ _ hps]
      simp only []
      rw [if_neg (by decide : ¬(429 = 200)), if_pos trivial, hv]
      dsimp only
      rw [if_neg (not_lt.mpr hv0)]
      have hrv : retryVal (GetOutcome.resp 429 remH resH raH body dur) = v := by
        simp [retryVal, hv]
      have hq5 : (0:Int) < s2.rate_limit_remaining ∨ (0:Int) ≤ v := Or.inr hv0
      obtain ⟨ires, ilen, irest, iback, ihead⟩ :=
        ih { now := s2.now + dur + (v:ℚ), last_request_time := s2.now + dur,
             rate_limit_remaining := s2.rate_limit_remaining,
             rate_limit_reset_time := v } hpre' hq5
      obtain ⟨t1, ts, hts⟩ :
          ∃ t1 ts, (rate_limited_request (pre' ++ fin :: rest)
            { now := s2.now + dur + (v:ℚ), last_request_time := s2.now + dur,
              rate_limit_remaining := s2.rate_limit_remaining,
              rate_limit_reset_time := v }).sends = t1 :: ts := by
        rcases hsends : (rate_limited_request (pre' ++ fin :: rest)
            { now := s2.now + dur + (v:ℚ), last_request_time := s2.now + dur,
              rate_limit_remaining := s2.rate_limit_remaining,
              rate_limit_reset_time := v }).sends with _ | ⟨t1, ts⟩
        · rw [hsends] at ilen; simp at ilen
        · exact ⟨t1, ts, rfl⟩
      have ht1 : s2.now + dur + (v:ℚ) ≤ t1 := by
        apply ihead
        rw [hts]
        rfl
      refine ⟨ires, ?_, irest, ?_, ?_⟩
      · simp only [List.length_cons, ilen]
      · rw [hts] at iback ⊢
        refine ⟨?_, iback⟩
        simp only [GetOutcome.dur, hrv]
        exact ht1
      · intro t0 ht0
        simp only [List.head?_cons, Option.some.injEq] at ht0
        subst ht0
        exact hn

/-! ### Search-level lemmas -/

lemma buildCandidates_some (fz : String → String → Nat) (q et : String)
    (m : String × String) (items : List RawItem) :
    buildCandidates fz q et (some m) items = .ok (items.map (toCandidate fz q et m)) := by
  cases items <;> rfl

lemma preSleep_pos_fields (s s2 : GateState) (hrem : 0 < s.rate_limit_remaining)
    (h : preSleep s = .ok s2) :
    s2.rate_limit_remaining = s.rate_limit_remaining ∧
      s2.rate_limit_reset_time = s.rate_limit_reset_time := by
  unfold preSleep at h
  rw [if_neg (fun hc => absurd hc.1 (not_le.mpr hrem))] at h
  simp only [if_neg (not_le.mpr hrem), Except.ok.injEq] at h
  by_cases he : s.now - s.last_request_time < 1
  · rw [if_pos he] at h
    subst h
    exact ⟨rfl, rfl⟩
  · rw [if_neg he] at h
    subst h
    exact ⟨rfl, rfl⟩

lemma search_ok_of_recognized (fz : String → String → Nat) (script : List GetOutcome)
    (s : GateState) (q t : String) (h : (findType t).isSome) :
    ∃ r, (search fz script s q t).result = .ok r := by
  obtain ⟨m, hm⟩ := Option.isSome_iff_exists.mp h
  unfold search
  cases hres : (rate_limited_request script s).res with
  | error e => exact ⟨[], rfl⟩
  | ok resp =>
    dsimp only
    cases hb : resp.body with
    | none => exact ⟨[], rfl⟩
    | some items =>
      dsimp only
      rw [hm, buildCandidates_some]
      exact ⟨_, rfl⟩

lemma search_fail_empty (fz : String → String → Nat) (script : List GetOutcome)
    (s : GateState) (q t : String) :
    (∀ e, (rate_limited_request script s).res = .error e →
        (search fz script s q t).result = .ok [])
    ∧ (∀ resp, (rate_limited_request script s).res = .ok resp → resp.body = none →
        (search fz script s q t).result = .ok []) := by
  constructor
  · intro e he
    unfold search
    rw [he]
  · intro resp hresp hb
    unfold search
    rw [hresp]
    dsimp only
    rw [hb]

lemma search_result_rank (fz : String → String → Nat) (script : List GetOutcome)
    (s : GateState) (q t : String) (r : List Candidate)
    (h : (search fz script s q t).result = .ok r) : ∃ l, r = rank l := by
  unfold search at h
  cases hres : (rate_limited_request script s).res with
  | error e =>
    rw [hres] at h
    simp only [Except.ok.injEq] at h
    exact ⟨[], h.symm⟩
  | ok resp =>
    rw [hres] at h
    dsimp only at h
    cases hb : resp.body with
    | none =>
      rw [hb] at h
      simp only [Except.ok.injEq] at h
      exact ⟨[], h.symm⟩
    | some items =>
      rw [hb] at h
      dsimp only at h
      cases hbc : buildCandidates fz q (searchEntityType t) (findType t) items with
      | error e =>
        rw [hbc] at h
        exact Except.noConfusion h
      | ok out =>
        rw [hbc] at h
        simp only [Except.ok.injEq] at h
        exact ⟨out, h.symm⟩

lemma runBatch_keys (fz : String → String → Nat) (qs : List (String × QueryObj))
    (script : List GetOutcome) (s : GateState)
    (h : ∀ p ∈ qs, p.2.queryField.isSome ∧
        (findType (p.2.typeField.getD "/discogs/artist")).isSome) :
    ∃ res, (runBatch fz qs script s).1 = .ok res
      ∧ res.map Prod.fst = qs.map Prod.fst := by
  induction qs generalizing script s with
  | nil => exact ⟨[], rfl, rfl⟩
  | cons p restQ ih =>
    obtain ⟨hqf, hft⟩ := h p (List.mem_cons_self _ _)
    obtain ⟨qtext, hq⟩ := Option.isSome_iff_exists.mp hqf
    obtain ⟨key, q⟩ := p
    obtain ⟨data, hdata⟩ :=
      search_ok_of_recognized fz script s qtext (q.typeField.getD "/discogs/artist") hft
    have h' : ∀ p ∈ restQ, p.2.queryField.isSome ∧
        (findType (p.2.typeField.getD "/discogs/artist")).isSome :=
      fun p hp => h p (List.mem_cons_of_mem _ hp)
    obtain ⟨res', hres', hmap⟩ :=
      ih (search fz script s qtext (q.typeField.getD "/discogs/artist")).rest
        (search fz script s qtext (q.typeField.getD "/discogs/artist")).state h'
    simp only [runBatch]
    rw [hq]
    dsimp only
    rw [hdata]
    dsimp only
    rw [hres']
    exact ⟨(key, data) :: res', rfl, by simp [hmap]⟩

/-! ### Concrete fixtures and their evaluations -/

/-- An initial state: process started at time 0, first request at time 100. -/
def s0 : GateState := ⟨100, 0, 60, 60⟩

/-- A concrete similarity scorer standing in for `fuzz.token_sort_ratio`. -/
def fz0 : String → String → Nat := fun q n => if q == n then 100 else 50

/-- A concrete model of `json.loads(query)['query']` that always raises. -/
def jq0 : String → Except Unit String := fun _ => .error ()

lemma preSleep_s0 : preSleep s0 = .ok s0 := by
  norm_num [preSleep, s0]

/-- An upstream result item carrying both a title and a name. -/
def itemX : RawItem := ⟨some "X", some "X", some 1, none⟩

/-- A 200 response whose decoded body has one result item. -/
def exScript : List GetOutcome := [.resp 200 none none none (some [itemX]) 0]

lemma gate_exScript : rate_limited_request exScript s0 =
    ⟨.ok ⟨200, none, none, none, some [itemX]⟩, ⟨100, 100, 60, 60⟩, [], [100]⟩ := by
  rw [show exScript = [.resp 200 none none none (some [itemX]) 0] from rfl,
    rlr_resp 200 none none none (some [itemX]) 0 [] s0 s0 preSleep_s0]
  norm_num [hdrInt, s0]

lemma search_exScript_unknown :
    search fz0 exScript s0 "X" "/unknown/type" =
      ⟨.error (), ⟨100, 100, 60, 60⟩, [], [100]⟩ := by
  unfold search
  rw [gate_exScript]
  rfl

/-- A `requests.get` network failure. -/
def exnScript : List GetOutcome := [.exn 5]

lemma gate_exnScript : rate_limited_request exnScript s0 =
    ⟨.error .netError, ⟨105, 0, 60, 60⟩, [], [100]⟩ := by
  rw [show exnScript = [.exn 5] from rfl, rlr_exn 5 [] s0 s0 preSleep_s0]
  norm_num [s0]

/-- An artist result item with a name. -/
def itemN : RawItem := ⟨none, some "Nirvana", some 1, some "C1"⟩

/-- An artist result item with no name field. -/
def itemU : RawItem := ⟨none, none, some 2, none⟩

/-- A 200 response carrying the two artist items. -/
def script2 : List GetOutcome := [.resp 200 none none none (some [itemN, itemU]) 0]

lemma gate_script2 : rate_limited_request script2 s0 =
    ⟨.ok ⟨200, none, none, none, some [itemN, itemU]⟩, ⟨100, 100, 60, 60⟩, [], [100]⟩ := by
  rw [show script2 = [.resp 200 none none none (some [itemN, itemU]) 0] from rfl,
    rlr_resp 200 none none none (some [itemN, itemU]) 0 [] s0 s0 preSleep_s0]
  norm_num [hdrInt, s0]

/-- The candidate built from `itemN` for the query "Nirvana". -/
def candN : Candidate :=
  ⟨"https://www.discogs.com/artist/1", "Nirvana", 100, true,
    [("/discogs/artist", "Artist")], "C1"⟩

/-- The candidate built from `itemU` (missing name) for the query "Nirvana". -/
def candU : Candidate :=
  ⟨"https://www.discogs.com/artist/2", "Unknown", 0, false,
    [("/discogs/artist", "Artist")], "N/A"⟩

lemma search_script2 :
    (search fz0 script2 s0 "Nirvana" "/discogs/artist").result = .ok [candN, candU] := by
  unfold search
  rw [gate_script2]
  rfl

lemma reconcile_batch_unknown_eval :
    reconcile fz0 jq0 exScript s0 none none none
      (some [("q2", ⟨some "X", some "/unknown/type"⟩)]) =
    ⟨.error .typeError, ⟨100, 100, 60, 60⟩, [], [100]⟩ := by
  show reconcileTail fz0 exScript s0 (some [("q2", ⟨some "X", some "/unknown/type"⟩)]) = _
  unfold reconcileTail runBatch
  dsimp only
  simp only [Option.getD_some]
  rw [search_exScript_unknown]

/-! ### Claim theorems -/

/-- C4 (corrected): `last_request_time` is assigned the GET's return time
(send time plus call duration) whenever `requests.get` returns a response —
whatever the status, including when later header parsing raises — but when the
GET itself raises a network error the assignment on line 101 is skipped: the
error propagates to the caller with `last_request_time` unchanged. -/
theorem discogs_C4_last_request_update
    (status : Nat) (remH resH raH : Option String) (body : Option (List RawItem))
    (dur : ℚ) (rest : List GetOutcome) (s : GateState)
    (hq : 0 < s.rate_limit_remaining ∨ 0 ≤ s.rate_limit_reset_time)
    (h429 : status ≠ 429) :
    (∃ t, (rate_limited_request (.resp status remH resH raH body dur :: rest) s).sends = [t]
      ∧ (rate_limited_request
          (.resp status remH resH raH body dur :: rest) s).state.last_request_time
          = t + dur)
    ∧ (rate_limited_request (.exn dur :: rest) s).res = .error .netError
    ∧ (rate_limited_request (.exn dur :: rest) s).state.last_request_time
        = s.last_request_time := by
  obtain ⟨s2, hps⟩ := preSleep_isOk s hq
  obtain ⟨hl, _, _⟩ := preSleep_spec s s2 hps
  refine ⟨⟨s2.now, ?_⟩, ?_, ?_⟩
  · rw [rlr_resp status remH resH raH body dur rest s s2 hps]
    dsimp only
    by_cases h200 : status = 200
    · rw [if_pos h200]
      cases hdrInt remH with
      | error e => exact ⟨rfl, rfl⟩
      | ok rv =>
        cases hdrInt resH with
        | error e => exact ⟨rfl, rfl⟩
        | ok tv => exact ⟨rfl, rfl⟩
    · rw [if_neg h200, if_neg h429]
      exact ⟨rfl, rfl⟩
  · rw [rlr_exn dur rest s s2 hps]
  · rw [rlr_exn dur rest s s2 hps]
    exact hl

/-- C4 witness: a 404 response after 5 seconds updates `last_request_time` to
send time + 5; a raised GET leaves it unchanged. -/
theorem discogs_C4_last_request_update_witness :
    (∃ t, (rate_limited_request [.resp 404 none none none none 5] s0).sends = [t]
      ∧ (rate_limited_request [.resp 404 none none none none 5] s0).state.last_request_time
          = t + 5)
    ∧ (rate_limited_request [.exn 5] s0).res = .error .netError
    ∧ (rate_limited_request [.exn 5] s0).state.last_request_time
        = s0.last_request_time :=
  discogs_C4_last_request_update 404 none none none none 5 [] s0
    (Or.inl (by decide)) (by norm_num)

/-- C4 counterexample: the GET raises after 5 seconds (at wall-clock time 105),
yet `last_request_time` still holds its initial value 0 when the error reaches
the caller — the claim asserted it would be set to the current time. -/
theorem discogs_C4_cex :
    (rate_limited_request exnScript s0).res = .error .netError
    ∧ (rate_limited_request exnScript s0).state.now = 105
    ∧ (rate_limited_request exnScript s0).state.last_request_time = 0 := by
  rw [gate_exnScript]
  exact ⟨rfl, rfl, rfl⟩

/-- C5 (corrected): on an HTTP 200 response the gate sets
`rate_limit_remaining` and `rate_limit_reset_time` from the two ratelimit
headers, each defaulting to 60 only when its header is ABSENT; a header that is
present but unparsable makes `int()` raise `ValueError` (caught by `search` as
an empty result) and leaves that field at its previous value. -/
theorem discogs_C5_header_defaults (remH resH raH : Option String)
    (body : Option (List RawItem)) (dur : ℚ) (rest : List GetOutcome) (s : GateState)
    (hrem : 0 < s.rate_limit_remaining) :
    (remH = none → resH = none →
      (rate_limited_request (.resp 200 remH resH raH body dur :: rest) s).res
          = .ok ⟨200, remH, resH, raH, body⟩
      ∧ (rate_limited_request
          (.resp 200 remH resH raH body dur :: rest) s).state.rate_limit_remaining = 60
      ∧ (rate_limited_request
          (.resp 200 remH resH raH body dur :: rest) s).state.rate_limit_reset_time = 60)
    ∧ (∀ v1 v2, hdrInt remH = .ok v1 → hdrInt resH = .ok v2 →
      (rate_limited_request (.resp 200 remH resH raH body dur :: rest) s).res
          = .ok ⟨200, remH, resH, raH, body⟩
      ∧ (rate_limited_request
          (.resp 200 remH resH raH body dur :: rest) s).state.rate_limit_remaining = v1
      ∧ (rate_limited_request
          (.resp 200 remH resH raH body dur :: rest) s).state.rate_limit_reset_time = v2)
    ∧ (∀ str, remH = some str → pyInt str = none →
      (rate_limited_request (.resp 200 remH resH raH body dur :: rest) s).res
          = .error .valueError
      ∧ (rate_limited_request
          (.resp 200 remH resH raH body dur :: rest) s).state.rate_limit_remaining
            = s.rate_limit_remaining
      ∧ (rate_limited_request
          (.resp 200 remH resH raH body dur :: rest) s).state.rate_limit_reset_time
            = s.rate_limit_reset_time)
    ∧ (∀ v1 str, hdrInt remH = .ok v1 → resH = some str → pyInt str = none →
      (rate_limited_request (.resp 200 remH resH raH body dur :: rest) s).res
          = .error .valueError
      ∧ (rate_limited_request
          (.resp 200 remH resH raH body dur :: rest) s).state.rate_limit_remaining = v1
      ∧ (rate_limited_request
          (.resp 200 remH resH raH body dur :: rest) s).state.rate_limit_reset_time
            = s.rate_limit_reset_time) := by
  obtain ⟨s2, hps⟩ := preSleep_isOk s (Or.inl hrem)
  obtain ⟨hf1, hf2⟩ := preSleep_pos_fields s s2 hrem hps
  have hR := rlr_resp 200 remH resH raH body dur rest s s2 hps
  refine ⟨?_, ?_, ?_, ?_⟩
  · intro h1 h2
    subst h1
    subst h2
    rw [hR]
    dsimp only
    rw [if_pos rfl]
    exact ⟨rfl, rfl, rfl⟩
  · intro v1 v2 hv1 hv2
    rw [hR]
    dsimp only
    rw [if_pos rfl, hv1]
    dsimp only
    rw [hv2]
    exact ⟨rfl, rfl, rfl⟩
  · intro str hstr hpi
    have hv : hdrInt remH = .error .valueError := by
      rw [hstr]
      unfold hdrInt
      dsimp only
      rw [hpi]
    rw [hR]
    dsimp only
    rw [if_pos rfl, hv]
    exact ⟨rfl, hf1, hf2⟩
  · intro v1 str hv1 hstr hpi
    have hv : hdrInt resH = .error .valueError := by
      rw [hstr]
      unfold hdrInt
      dsimp only
      rw [hpi]
    rw [hR]
    dsimp only
    rw [if_pos rfl, hv1]
    dsimp only
    rw [hv]
    exact ⟨rfl, rfl, hf2⟩

/-- C5 witness: both headers absent default both fields to 60; parsable headers
"12" and "37" set the fields to 12 and 37. -/
theorem discogs_C5_header_defaults_witness :
    ((rate_limited_request [.resp 200 none none none none 0] s0).res
        = .ok ⟨200, none, none, none, none⟩
      ∧ (rate_limited_request [.resp 200 none none none none 0] s0).state.rate_limit_remaining = 60
      ∧ (rate_limited_request [.resp 200 none none none none 0] s0).state.rate_limit_reset_time = 60)
    ∧ ((rate_limited_request
          [.resp 200 (some "12") (some "37") none none 0] s0).res
        = .ok ⟨200, some "12", some "37", none, none⟩
      ∧ (rate_limited_request
          [.resp 200 (some "12") (some "37") none none 0] s0).state.rate_limit_remaining = 12
      ∧ (rate_limited_request
          [.resp 200 (some "12") (some "37") none none 0] s0).state.rate_limit_reset_time = 37) :=
  ⟨(discogs_C5_header_defaults none none none none 0 [] s0 (by decide)).1 rfl rfl,
   (discogs_C5_header_defaults (some "12") (some "37") none none 0 [] s0
      (by decide)).2.1 12 37 (by decide) (by decide)⟩

/-- C5 counterexample: a 200 response whose remaining-quota header reads "abc"
raises `ValueError` instead of defaulting the field to 60; with the field
previously 5 it stays 5, refuting the claim that it is set to 60 whenever the
header cannot be parsed. -/
theorem discogs_C5_cex :
    (rate_limited_request [.resp 200 (some "abc") none none none 0]
        ⟨100, 0, 5, 60⟩).res = .error .valueError
    ∧ (rate_limited_request [.resp 200 (some "abc") none none none 0]
        ⟨100, 0, 5, 60⟩).state.rate_limit_remaining = 5 := by
  have hps : preSleep ⟨100, 0, 5, 60⟩ = .ok ⟨100, 0, 5, 60⟩ := by
    norm_num [preSleep]
  rw [rlr_resp 200 (some "abc") none none none 0 [] ⟨100, 0, 5, 60⟩ ⟨100, 0, 5, 60⟩ hps]
  dsimp only
  rw [if_pos rfl, show hdrInt (some "abc") = .error .valueError from by decide]
  exact ⟨rfl, rfl⟩

/-- C6 (amended): across any sequence of back-to-back calls through the rate
gate in which every HTTP GET returns a response — whatever the remaining-quota
value, 429 retries included — consecutive outbound send times are always at
least 1 second apart, provided call durations are non-negative and the clock
starts at or after the recorded last request. When a GET raises, the skipped
`last_request_time` update breaks the floor (see the counterexample). -/
theorem discogs_C6_min_spacing (scripts : List (List GetOutcome)) (s : GateState)
    (hdur : ∀ sc ∈ scripts, ∀ ev ∈ sc, 0 ≤ ev.dur)
    (hnx : ∀ sc ∈ scripts, ∀ ev ∈ sc, noRaise ev)
    (hs : s.last_request_time ≤ s.now) :
    (runCalls scripts s).2.Chain' gap1 :=
  (runCalls_spec scripts s hdur hnx hs).1

/-- C6 witness: two instantaneous 200 responses in a row, the first reporting
an exhausted quota for the second call to inherit, still have sends ≥ 1 second
apart. -/
theorem discogs_C6_min_spacing_witness :
    (runCalls [[.resp 200 (some "0") none none none 0],
               [.resp 200 none none none none 0]] s0).2.Chain' gap1 :=
  discogs_C6_min_spacing
    [[.resp 200 (some "0") none none none 0], [.resp 200 none none none none 0]] s0
    (by intro sc hsc ev hev
        fin_cases hsc <;> (fin_cases hev; norm_num [GetOutcome.dur]))
    (by intro sc hsc ev hev
        fin_cases hsc <;> (fin_cases hev; trivial))
    (by norm_num [s0])

/-- C6 counterexample: when a GET raises (here half a second after its send at
time 100), `last_request_time` keeps its stale value 0 (the C4 correction);
`search` swallows the error, the endpoint keeps serving, and the next call
through the gate measures `elapsed` from the stale value — its send goes out at
time 100.5, only half a second after the previous outbound send, refuting the
unconditional 1-second floor between consecutive sends. -/
theorem discogs_C6_cex :
    (runCalls [[.exn (1/2)], [.resp 200 none none none none 0]] s0).2
        = [100, 100 + 1/2]
    ∧ ¬ (runCalls [[.exn (1/2)], [.resp 200 none none none none 0]] s0).2.Chain' gap1 := by
  have h1 : rate_limited_request [.exn (1/2)] s0 =
      ⟨.error .netError, ⟨100 + 1/2, 0, 60, 60⟩, [], [100]⟩ := by
    rw [rlr_exn (1/2) [] s0 s0 preSleep_s0]
    norm_num [s0]
  have hps1 : preSleep ⟨100 + 1/2, 0, 60, 60⟩ = .ok ⟨100 + 1/2, 0, 60, 60⟩ := by
    norm_num [preSleep]
  have h2 : rate_limited_request [.resp 200 none none none none 0]
        ⟨100 + 1/2, 0, 60, 60⟩ =
      ⟨.ok ⟨200, none, none, none, none⟩, ⟨100 + 1/2, 100 + 1/2, 60, 60⟩,
        [], [100 + 1/2]⟩ := by
    rw [rlr_resp 200 none none none none 0 [] ⟨100 + 1/2, 0, 60, 60⟩
      ⟨100 + 1/2, 0, 60, 60⟩ hps1]
    norm_num [hdrInt]
  have htrace : (runCalls [[.exn (1/2)], [.resp 200 none none none none 0]] s0).2
      = [100, 100 + 1/2] := by
    simp only [runCalls]
    rw [h1]
    dsimp only
    rw [h2]
    simp
  refine ⟨htrace, ?_⟩
  rw [htrace]
  intro hc
  rcases List.chain'_cons.mp hc with ⟨hgap, _⟩
  have hbad : (100:ℚ) + 1 ≤ 100 + 1/2 := hgap
  linarith

/-- C7 (confirmed): when the upstream script is a run of 429 responses (each
with an absent or parsable non-negative `Retry-After`) followed by a non-429
response, the gate returns that first non-429 response, sends exactly one more
request than the number of 429s received, leaves the rest of the script
unconsumed, and each retry send waits at least the previous 429's duration plus
its `Retry-After` backoff. -/
theorem discogs_C7_retry_until_success (pre : List GetOutcome) (fin : GetOutcome)
    (rest : List GetOutcome) (s : GateState)
    (hpre : ∀ e ∈ pre, good429 e) (hfin : goodFinal fin)
    (hq : 0 < s.rate_limit_remaining ∨ 0 ≤ s.rate_limit_reset_time) :
    (rate_limited_request (pre ++ fin :: rest) s).res = .ok (respOf fin)
    ∧ (rate_limited_request (pre ++ fin :: rest) s).sends.length = pre.length + 1
    ∧ (rate_limited_request (pre ++ fin :: rest) s).rest = rest
    ∧ backoffOk (rate_limited_request (pre ++ fin :: rest) s).sends pre := by
  obtain ⟨h1, h2, h3, h4, _⟩ := retry_spec pre fin rest s hpre hfin hq
  exact ⟨h1, h2, h3, h4⟩

/-- C7 witness: one 429 with `Retry-After: 5` followed by a 404; the gate
returns the 404, sends exactly two requests and honours the 5-second backoff. -/
theorem discogs_C7_retry_until_success_witness :
    (rate_limited_request
        ([.resp 429 none none (some "5") none 0] ++ .resp 404 none none none none 0 :: []) s0).res
      = .ok (respOf (.resp 404 none none none none 0))
    ∧ (rate_limited_request
        ([.resp 429 none none (some "5") none 0] ++ .resp 404 none none none none 0 :: []) s0).sends.length
      = [GetOutcome.resp 429 none none (some "5") none 0].length + 1
    ∧ (rate_limited_request
        ([.resp 429 none none (some "5") none 0] ++ .resp 404 none none none none 0 :: []) s0).rest = []
    ∧ backoffOk (rate_limited_request
        ([.resp 429 none none (some "5") none 0] ++ .resp 404 none none none none 0 :: []) s0).sends
        [GetOutcome.resp 429 none none (some "5") none 0] :=
  discogs_C7_retry_until_success [.resp 429 none none (some "5") none 0]
    (.resp 404 none none none none 0) [] s0
    (by intro e he
        simp only [List.mem_singleton] at he
        subst he
        exact ⟨rfl, 5, by decide, by decide⟩)
    ⟨by decide, fun h => absurd h (by decide)⟩
    (Or.inl (by decide))

/-- C1 (amended): when every batch entry has a `query` field and its type
(defaulting to `/discogs/artist` when missing) is in the fixed descriptor set,
the batch response carries exactly the input key set, in order. -/
theorem discogs_C1_batch_keys (fz : String → String → Nat)
    (jq : String → Except Unit String) (script : List GetOutcome) (s : GateState)
    (qs : List (String × QueryObj))
    (h : ∀ p ∈ qs, p.2.queryField.isSome ∧
        (findType (p.2.typeField.getD "/discogs/artist")).isSome) :
    ∃ res, (reconcile fz jq script s none none none (some qs)).resp = .ok (.batch res)
      ∧ res.map Prod.fst = qs.map Prod.fst := by
  obtain ⟨res, hres, hmap⟩ := runBatch_keys fz qs script s h
  refine ⟨res, ?_, hmap⟩
  show (reconcileTail fz script s (some qs)).resp = .ok (.batch res)
  unfold reconcileTail
  dsimp only
  rcases hrb : runBatch fz qs script s with ⟨r, s1, rest1, tr⟩
  rw [hrb] at hres
  dsimp only at hres
  rw [hres]

/-- C1 witness: a one-entry batch with a recognized type yields a response with
exactly the key `q1`. -/
theorem discogs_C1_batch_keys_witness :
    ∃ res, (reconcile fz0 jq0 script2 s0 none none none
        (some [("q1", ⟨some "Nirvana", some "/discogs/artist"⟩)])).resp = .ok (.batch res)
      ∧ res.map Prod.fst = [("q1", (⟨some "Nirvana", some "/discogs/artist"⟩ : QueryObj))].map Prod.fst :=
  discogs_C1_batch_keys fz0 jq0 script2 s0
    [("q1", ⟨some "Nirvana", some "/discogs/artist"⟩)] (by decide)

/-- C1 counterexample: a batch whose single entry has the unrecognized type
`/unknown/type` does make an upstream call (one send at time 100), and because
the upstream returns a result item the whole request raises `TypeError`
(`query_type_meta["id"]` with `query_type_meta = None`) instead of producing an
empty result list for that key. -/
theorem discogs_C1_cex :
    (reconcile fz0 jq0 exScript s0 none none none
        (some [("q2", ⟨some "X", some "/unknown/type"⟩)])).resp = .error .typeError
    ∧ (reconcile fz0 jq0 exScript s0 none none none
        (some [("q2", ⟨some "X", some "/unknown/type"⟩)])).sends = [100] := by
  rw [reconcile_batch_unknown_eval]
  exact ⟨rfl, rfl⟩

/-- C2 (amended): `search` never raises when the entityTypeId is in the fixed
descriptor set, and on any exception from the rate gate or a non-decodable
response body it returns the empty list; but for an id outside the set it can
raise (see the counterexample). -/
theorem discogs_C2_search_failsoft (fz : String → String → Nat)
    (script : List GetOutcome) (s : GateState) (q t : String) :
    ((findType t).isSome → ∃ r, (search fz script s q t).result = .ok r)
    ∧ (∀ e, (rate_limited_request script s).res = .error e →
        (search fz script s q t).result = .ok [])
    ∧ (∀ resp, (rate_limited_request script s).res = .ok resp → resp.body = none →
        (search fz script s q t).result = .ok []) :=
  ⟨fun h => search_ok_of_recognized fz script s q t h,
   (search_fail_empty fz script s q t).1,
   (search_fail_empty fz script s q t).2⟩

/-- C2 witness: a raised network error makes `search` return the empty list for
a recognized type. -/
theorem discogs_C2_search_failsoft_witness :
    (search fz0 exnScript s0 "Nirvana" "/discogs/artist").result = .ok [] :=
  (discogs_C2_search_failsoft fz0 exnScript s0 "Nirvana" "/discogs/artist").2.1
    .netError (by rw [gate_exnScript])

/-- C2 counterexample: with the unrecognized id `/unknown/type` and an upstream
200 response containing one item, `search` raises a `TypeError` instead of
returning a list — refuting "never raises ... including ids not in the fixed
descriptor set". -/
theorem discogs_C2_cex :
    (search fz0 exScript s0 "X" "/unknown/type").result = .error () := by
  rw [search_exScript_unknown]

/-- C3 (code bug): a single query supplied through the `query` FORM parameter
crashes with `UnboundLocalError` — the local `query_type` is only ever assigned
on the branch where the form parameter is absent — while the same query through
the query-string parameters succeeds with the artist default type. -/
theorem discogs_C3_form_query_crash :
    (reconcile fz0 jq0 exnScript s0 (some "Nirvana") none none none).resp
        = .error .unboundLocal
    ∧ (reconcile fz0 jq0 exnScript s0 none (some "Nirvana") none none).resp
        = .ok (.single []) := by
  constructor
  · rfl
  · have hs : (search fz0 exnScript s0 "Nirvana" "/discogs/artist").result = .ok [] :=
      (search_fail_empty fz0 exnScript s0 "Nirvana" "/discogs/artist").1
        .netError (by rw [gate_exnScript])
    unfold reconcile
    dsimp only
    rw [if_neg (by decide : ¬("Nirvana" = ""))]
    rw [if_neg (by decide : ¬(startsWithBrace "Nirvana" = true))]
    dsimp only
    simp only [Option.getD_none]
    rw [hs]

/-- A bare scored candidate for ranking examples. -/
def exCand (nm : String) (sc : Nat) : Candidate := ⟨"", nm, sc, false, [], ""⟩

/-- The five-candidate arrival list with scores [40, 95, 95, 10, 70]. -/
def ex5 : List Candidate :=
  [exCand "a" 40, exCand "b" 95, exCand "c" 95, exCand "d" 10, exCand "e" 70]

/-- C8 (confirmed): every list `search` returns is sorted by descending score
and holds at most 3 entries; the sort is stable — for every score the
equal-score candidates keep their arrival order — and on scores
[40, 95, 95, 10, 70] the ranking yields the 95, 95, 70 entries with the tied
pair in arrival order. -/
theorem discogs_C8_ranking (fz : String → String → Nat) (script : List GetOutcome)
    (s : GateState) (q t : String) (l : List Candidate) (n : Nat) :
    (∀ r, (search fz script s q t).result = .ok r → r.Pairwise desc ∧ r.length ≤ 3)
    ∧ (sortDesc l).Pairwise desc
    ∧ (sortDesc l).filter (fun c => c.score == n) = l.filter (fun c => c.score == n)
    ∧ rank ex5 = [exCand "b" 95, exCand "c" 95, exCand "e" 70] := by
  refine ⟨?_, pairwise_sortDesc l, filter_sortDesc n l, by decide⟩
  intro r hr
  obtain ⟨l', rfl⟩ := search_result_rank fz script s q t r hr
  exact ⟨pairwise_rank l', length_rank l'⟩

/-- C8 witness: the concrete two-candidate search result is descending and
within the 3-entry cap. -/
theorem discogs_C8_ranking_witness :
    [candN, candU].Pairwise desc ∧ [candN, candU].length ≤ 3 :=
  (discogs_C8_ranking fz0 script2 s0 "Nirvana" "/discogs/artist" [] 0).1
    [candN, candU] search_script2

/-- C9 (confirmed): constructing the Config raises ConfigError whenever the
required TOKEN variable is absent from the environment (whatever else is set),
and whenever PORT is set to a value `int()` cannot parse. -/
theorem discogs_C9_config_errors (env : String → Option String) :
    (env "TOKEN" = none → ConfigInit env = .error ())
    ∧ (∀ p, env "PORT" = some p → pyInt p = none → ConfigInit env = .error ()) := by
  constructor
  · intro htok
    unfold ConfigInit
    cases hdu : env "DISCOGS_USER" with
    | none => rfl
    | some du =>
      dsimp only
      rw [htok]
  · intro p hp hpi
    unfold ConfigInit
    cases hdu : env "DISCOGS_USER" with
    | none => rfl
    | some du =>
      dsimp only
      cases htok : env "TOKEN" with
      | none => rfl
      | some tok =>
        dsimp only
        rw [hp]
        dsimp only
        rw [hpi]

/-- An environment with a user but no token. -/
def envNoToken : String → Option String :=
  fun k => if k == "DISCOGS_USER" then some "user" else none

/-- An environment whose PORT value is not an integer. -/
def envBadPort : String → Option String :=
  fun k => if k == "PORT" then some "abc" else some "value"

/-- C9 witness: the missing token and the non-integer PORT both raise. -/
theorem discogs_C9_config_errors_witness :
    ConfigInit envNoToken = .error () ∧ ConfigInit envBadPort = .error () :=
  ⟨(discogs_C9_config_errors envNoToken).1 rfl,
   (discogs_C9_config_errors envBadPort).2 "abc" rfl (by decide)⟩

/-- C10 (confirmed): the candidate-construction loop maps every upstream result
item to a candidate (none are dropped, nothing is raised once the descriptor is
found), and an item whose display-name field is absent — `name` for artist
searches, `title` otherwise — yields a candidate named "Unknown" with score 0
and the exact-match flag false. -/
theorem discogs_C10_unknown_name (fz : String → String → Nat) (query et : String)
    (m : String × String) (items : List RawItem) :
    buildCandidates fz query et (some m) items
        = .ok (items.map (toCandidate fz query et m))
    ∧ (items.map (toCandidate fz query et m)).length = items.length
    ∧ ∀ item ∈ items, displayName et item = none →
        (toCandidate fz query et m item).name = "Unknown"
        ∧ (toCandidate fz query et m item).score = 0
        ∧ (toCandidate fz query et m item).matchFlag = false := by
  refine ⟨buildCandidates_some fz query et m items, List.length_map _ _, ?_⟩
  intro item _ hnone
  unfold toCandidate
  rw [hnone]
  exact ⟨rfl, rfl, rfl⟩

/-- C10 witness: the name-less artist item `itemU` becomes the "Unknown",
score-0, non-matching candidate and is not dropped. -/
theorem discogs_C10_unknown_name_witness :
    buildCandidates fz0 "Nirvana" "artist" (some ("/discogs/artist", "Artist")) [itemU]
        = .ok ([itemU].map (toCandidate fz0 "Nirvana" "artist" ("/discogs/artist", "Artist")))
    ∧ ([itemU].map (toCandidate fz0 "Nirvana" "artist" ("/discogs/artist", "Artist"))).length
        = [itemU].length
    ∧ (toCandidate fz0 "Nirvana" "artist" ("/discogs/artist", "Artist") itemU).name = "Unknown"
    ∧ (toCandidate fz0 "Nirvana" "artist" ("/discogs/artist", "Artist") itemU).score = 0
    ∧ (toCandidate fz0 "Nirvana" "artist" ("/discogs/artist", "Artist") itemU).matchFlag = false := by
  obtain ⟨h1, h2, h3⟩ :=
    discogs_C10_unknown_name fz0 "Nirvana" "artist" ("/discogs/artist", "Artist") [itemU]
  obtain ⟨h4, h5, h6⟩ := h3 itemU (List.mem_singleton_self _) (by decide)
  exact ⟨h1, h2, h4, h5, h6⟩
